import Mathlib

/-!
# Verification of `src/librustc/dep_graph/thread.rs`

A shallow embedding of the double-buffered message channel between the
compiler's main thread (the producer) and the dep-graph worker thread.

Modelling choices:

* Cross-thread interaction happens only through three FIFO `mpsc` channels
  (`swap_in`, `swap_out`, `query_in`).  The worker (`main`) is deterministic,
  so every interleaving yields the same sequence of values observed on each
  channel.  We therefore model the system as a sequential state machine in
  which the worker is scheduled eagerly: each buffer sent on `swap_out` is
  drained by the worker (one iteration of `main`'s loop body) immediately,
  before the producer's next step.  Channel contents are explicit FIFO lists.
* A Rust `panic!` (a failed `assert!` or `.unwrap()`) is modelled by the
  operation returning `none`.
* Buffers carry an allocation identifier `id` so that "no fresh buffer is
  ever allocated" is expressible; `allocCount` counts allocations ever made.
* Ghost fields (`enqueuedLog`, `swapCount`, `resultsReceived`,
  `workerSpawned`) record history for the statements; no operation reads them.
-/

/-- `DepNode`: opaque identifier naming a node in the dependency graph. -/
structure DepNode where
  ident : Nat
deriving DecidableEq, Repr

/-- The `DepMessage` enum from `thread.rs`. -/
inductive DepMessage where
  | Read (node : DepNode)
  | Write (node : DepNode)
  | PushTask (node : DepNode)
  | PopTask (node : DepNode)
  | PushIgnore
  | PopIgnore
  | Query
deriving DecidableEq, Repr

/-- A graph mutation dispatched to `DepGraphEdges` by the worker loop
(one constructor per non-`Query` arm of the `match` in `main`). -/
inductive GraphOp where
  | read (node : DepNode)
  | write (node : DepNode)
  | pushTask (node : DepNode)
  | popTask (node : DepNode)
  | pushIgnore
  | popIgnore
deriving DecidableEq, Repr

/-- Modelled from the spec: `DepGraphEdges` (the GraphBuilder, in
`super::edges`, not part of the given source) is specified only at its
interface: it "consumes messages in order" and answers `query()` with an
opaque `GraphSnapshot` "representing the graph's structure as of that
point".  We model its state as the ordered trace of mutations applied. -/
structure DepGraphEdges where
  trace : List GraphOp
deriving DecidableEq, Repr

/-- Modelled from the spec: `DepGraphQuery` (the opaque `GraphSnapshot`,
"transported verbatim") is the edges trace at the instant
`DepGraphEdges::query` is called. -/
abbrev DepGraphQuery := List GraphOp

/-- A message buffer (`Vec<DepMessage>` / the vector inside the `VecCell`).
`id` is a ghost allocation identifier: each `Vec`/`VecCell` allocation in
the source gets a distinct `id`, and moving a buffer across a channel
preserves it. -/
structure Buffer where
  id : Nat
  msgs : List DepMessage
deriving DecidableEq, Repr

/-- Modelled from the spec: `VecCell::push` (from `rustc_data_structures`,
not part of the given source) appends the message; per the spec, a swap is
triggered "if the buffer's length now equals capacity", so the `len`
returned to `enqueue_enabled` is the length after the push. -/
def vecCellPush (b : Buffer) (m : DepMessage) : Buffer × Nat :=
  (⟨b.id, b.msgs ++ [m]⟩, b.msgs.length + 1)

/-- `INITIAL_CAPACITY` from `thread.rs`. -/
def INITIAL_CAPACITY : Nat := 2048

/-- State of a `DepGraphThreadData` session: the producer's fields, the
explicit contents of the three channels, the worker-side `DepGraphEdges`,
and ghost instrumentation. -/
structure SysState where
  /-- the `enabled` field (`is_fully_enabled`). -/
  enabled : Bool
  /-- Modelled from the spec: `ShadowGraph::enabled()` (`super::shadow`,
  not part of the given source) — whether the shadow validator is engaged. -/
  shadowEnabled : Bool
  /-- Modelled from the spec: the messages forwarded to
  `ShadowGraph::enqueue`, in order (validator internals are out of scope). -/
  shadowLog : List DepMessage
  /-- the `messages` field: the current buffer being filled. -/
  messages : Buffer
  /-- contents of the `swap_in` channel (worker → producer), oldest first. -/
  swapIn : List Buffer
  /-- contents of the `swap_out` channel (producer → worker), oldest first.
  With the eager worker schedule this is empty at rest. -/
  swapOut : List Buffer
  /-- contents of the `query_in` channel (worker → producer), oldest first. -/
  queryIn : List DepGraphQuery
  /-- the worker-side graph. -/
  edges : DepGraphEdges
  /-- ghost: number of buffer allocations ever made. -/
  allocCount : Nat
  /-- ghost: whether `new` spawned the worker thread. -/
  workerSpawned : Bool
  /-- ghost: messages accepted into the buffer path, in enqueue order. -/
  enqueuedLog : List DepMessage
  /-- ghost: number of completed `swap` calls. -/
  swapCount : Nat
  /-- ghost: number of query results received by `query`. -/
  resultsReceived : Nat
deriving DecidableEq, Repr

/-- `DepGraphThreadData::new(enabled)`: allocates the producer's buffer
(allocation id 0); if `enabled`, spawns the worker, which immediately seeds
the ring by sending one fresh empty buffer (allocation id 1) on `swap_out`
(arriving on the producer's `swap_in`). -/
def newSys (enabled : Bool) (shadowEnabled : Bool) : SysState where
  enabled := enabled
  shadowEnabled := shadowEnabled
  shadowLog := []
  messages := ⟨0, []⟩
  swapIn := if enabled then [⟨1, []⟩] else []
  swapOut := []
  queryIn := []
  edges := ⟨[]⟩
  allocCount := if enabled then 2 else 1
  workerSpawned := enabled
  enqueuedLog := []
  swapCount := 0
  resultsReceived := 0

/-- `is_fully_enabled`. -/
def isFullyEnabled (s : SysState) : Bool := s.enabled

/-- `is_enqueue_enabled`: fully enabled, or the shadow graph is enabled. -/
def isEnqueueEnabled (s : SysState) : Bool := isFullyEnabled s || s.shadowEnabled

/-- The worker's drain of one buffer, following the `match` in `main`:
each non-`Query` message appends the corresponding `DepGraphEdges` mutation
to the trace; `Query` sends the current snapshot on the query channel
(appends it to the accumulated output list `qout`). -/
def drainMsgs (edges : DepGraphEdges) (qout : List DepGraphQuery) :
    List DepMessage → DepGraphEdges × List DepGraphQuery
  | [] => (edges, qout)
  | DepMessage.Read node :: rest => drainMsgs ⟨edges.trace ++ [GraphOp.read node]⟩ qout rest
  | DepMessage.Write node :: rest => drainMsgs ⟨edges.trace ++ [GraphOp.write node]⟩ qout rest
  | DepMessage.PushTask node :: rest => drainMsgs ⟨edges.trace ++ [GraphOp.pushTask node]⟩ qout rest
  | DepMessage.PopTask node :: rest => drainMsgs ⟨edges.trace ++ [GraphOp.popTask node]⟩ qout rest
  | DepMessage.PushIgnore :: rest => drainMsgs ⟨edges.trace ++ [GraphOp.pushIgnore]⟩ qout rest
  | DepMessage.PopIgnore :: rest => drainMsgs ⟨edges.trace ++ [GraphOp.popIgnore]⟩ qout rest
  | DepMessage.Query :: rest => drainMsgs edges (qout ++ [edges.trace]) rest

/-- One iteration of the worker loop body in `main` applied to the oldest
buffer on `swap_out` (if any): drain it into `edges` (emitting query
results), then send the same — now empty — buffer back on `swap_in`.
Inside a live session the send succeeds (the producer holds the receiver). -/
def workerStep (s : SysState) : SysState :=
  match s.swapOut with
  | [] => s
  | b :: rest =>
      let d := drainMsgs s.edges s.queryIn b.msgs
      { s with
        swapOut := rest
        edges := d.1
        queryIn := d.2
        swapIn := s.swapIn ++ [⟨b.id, []⟩] }

/-- `DepGraphThreadData::swap`:
asserts fully-enabled; receives the buffer from `swap_in` (`none` models
both a failed `assert!` and a failed/blocked `recv().unwrap()`);
asserts it is empty; installs it as `messages`; sends the old buffer on
`swap_out`.  The eagerly-scheduled worker then drains it at once. -/
def swapOp (s : SysState) : Option SysState :=
  if ¬ isFullyEnabled s then none
  else
    match s.swapIn with
    | [] => none
    | newMessages :: restIn =>
        if ¬ newMessages.msgs.isEmpty then none
        else
          let oldMessages := s.messages
          some (workerStep
            { s with
              messages := newMessages
              swapIn := restIn
              swapOut := s.swapOut ++ [oldMessages]
              swapCount := s.swapCount + 1 })

/-- `DepGraphThreadData::enqueue_enabled`: push the message onto the
current buffer; if the length is now `INITIAL_CAPACITY`, swap. -/
def enqueueEnabledOp (s : SysState) (message : DepMessage) : Option SysState :=
  let p := vecCellPush s.messages message
  let s' := { s with messages := p.1, enqueuedLog := s.enqueuedLog ++ [message] }
  if p.2 = INITIAL_CAPACITY then swapOp s' else some s'

/-- `DepGraphThreadData::enqueue`: asserts enqueue-enabled (`none` models
the panic), forwards the message to the shadow graph, and — when fully
enabled — runs `enqueue_enabled`. -/
def enqueueOp (s : SysState) (message : DepMessage) : Option SysState :=
  if ¬ isEnqueueEnabled s then none
  else
    let s' := { s with shadowLog := s.shadowLog ++ [message] }
    if isFullyEnabled s' then enqueueEnabledOp s' message else some s'

/-- `DepGraphThreadData::query`: asserts fully-enabled, enqueues
`DepMessage::Query`, swaps, then receives the oldest result from
`query_in` (`none` models a failed assert or a recv that can never
complete). -/
def queryOp (s : SysState) : Option (DepGraphQuery × SysState) :=
  if ¬ isFullyEnabled s then none
  else
    match enqueueOp s DepMessage.Query with
    | none => none
    | some s1 =>
        match swapOp s1 with
        | none => none
        | some s2 =>
            match s2.queryIn with
            | [] => none
            | r :: restQ =>
                some (r, { s2 with queryIn := restQ,
                                   resultsReceived := s2.resultsReceived + 1 })

/-- A producer-side operation: the public surface of `DepGraphThreadData`
(`swap` is private, but its assertion is part of the protocol claims). -/
inductive POp where
  | enq (message : DepMessage)
  | query
  | swapCall
deriving DecidableEq, Repr

/-- Run one producer operation. -/
def stepOp (s : SysState) : POp → Option SysState
  | POp.enq m => enqueueOp s m
  | POp.query => (queryOp s).map Prod.snd
  | POp.swapCall => swapOp s

/-- Run a sequence of producer operations, propagating panics. -/
def runOps (s : SysState) : List POp → Option SysState
  | [] => some s
  | op :: ops =>
      match stepOp s op with
      | none => none
      | some s' => runOps s' ops

/-- Run a sequence of `enqueue` calls. -/
def runEnqueues (s : SysState) : List DepMessage → Option SysState
  | [] => some s
  | m :: ms =>
      match enqueueOp s m with
      | none => none
      | some s' => runEnqueues s' ms

/-- The graph mutations corresponding to a message sequence: each
non-`Query` message in order, `Query` markers contributing none. -/
def opsOf : List DepMessage → List GraphOp
  | [] => []
  | DepMessage.Read node :: rest => GraphOp.read node :: opsOf rest
  | DepMessage.Write node :: rest => GraphOp.write node :: opsOf rest
  | DepMessage.PushTask node :: rest => GraphOp.pushTask node :: opsOf rest
  | DepMessage.PopTask node :: rest => GraphOp.popTask node :: opsOf rest
  | DepMessage.PushIgnore :: rest => GraphOp.pushIgnore :: opsOf rest
  | DepMessage.PopIgnore :: rest => GraphOp.popIgnore :: opsOf rest
  | DepMessage.Query :: rest => opsOf rest

/-- The snapshots a drain of `msgs` emits when the edges trace starts at
`tr`: one per `Query` marker, each equal to the trace at that marker. -/
def snapshotsFrom (tr : List GraphOp) : List DepMessage → List DepGraphQuery
  | [] => []
  | DepMessage.Read node :: rest => snapshotsFrom (tr ++ [GraphOp.read node]) rest
  | DepMessage.Write node :: rest => snapshotsFrom (tr ++ [GraphOp.write node]) rest
  | DepMessage.PushTask node :: rest => snapshotsFrom (tr ++ [GraphOp.pushTask node]) rest
  | DepMessage.PopTask node :: rest => snapshotsFrom (tr ++ [GraphOp.popTask node]) rest
  | DepMessage.PushIgnore :: rest => snapshotsFrom (tr ++ [GraphOp.pushIgnore]) rest
  | DepMessage.PopIgnore :: rest => snapshotsFrom (tr ++ [GraphOp.popIgnore]) rest
  | DepMessage.Query :: rest => tr :: snapshotsFrom tr rest

/-! ## The worker `main` against a dropped producer

For the shutdown-signaling claims we model `main` as a standalone function
of the producer's lifetime: `swapOutLive` is the number of sends on
`swap_out` that succeed before its receiver is dropped (the initial seed
send is send number 0), `queryLive` likewise counts the query-result sends
that succeed, and `inbound` is the finite sequence of buffers received on
`swap_in` before it reports disconnection (ending the `for` loop). -/

/-- How a run of the worker thread ends. -/
inductive WorkerExit where
  | graceful
  | panicked
deriving DecidableEq, Repr

/-- The drain of one buffer when only the first `queryLive` sends on
`query_out` succeed: the `Query` arm is
`query_out.send(edges.query()).unwrap()`, so a failed query-result send
panics (`none`).  Returns the updated edges and query-send count. -/
def drainChecked (queryLive : Nat) :
    DepGraphEdges → Nat → List DepMessage → Option (DepGraphEdges × Nat)
  | edges, qIdx, [] => some (edges, qIdx)
  | edges, qIdx, DepMessage.Read node :: rest =>
      drainChecked queryLive ⟨edges.trace ++ [GraphOp.read node]⟩ qIdx rest
  | edges, qIdx, DepMessage.Write node :: rest =>
      drainChecked queryLive ⟨edges.trace ++ [GraphOp.write node]⟩ qIdx rest
  | edges, qIdx, DepMessage.PushTask node :: rest =>
      drainChecked queryLive ⟨edges.trace ++ [GraphOp.pushTask node]⟩ qIdx rest
  | edges, qIdx, DepMessage.PopTask node :: rest =>
      drainChecked queryLive ⟨edges.trace ++ [GraphOp.popTask node]⟩ qIdx rest
  | edges, qIdx, DepMessage.PushIgnore :: rest =>
      drainChecked queryLive ⟨edges.trace ++ [GraphOp.pushIgnore]⟩ qIdx rest
  | edges, qIdx, DepMessage.PopIgnore :: rest =>
      drainChecked queryLive ⟨edges.trace ++ [GraphOp.popIgnore]⟩ qIdx rest
  | edges, qIdx, DepMessage.Query :: rest =>
      if qIdx < queryLive then drainChecked queryLive edges (qIdx + 1) rest else none

/-- The worker's `for` loop over `swap_in`: drain each buffer, then send
it back; `if let Err(_) = swap_out.send(messages) { break }` makes a failed
recycled-buffer send a graceful exit, and exhausting `swap_in` (producer
dropped its sender) ends the loop normally. -/
def workerLoop (swapOutLive queryLive : Nat) :
    Nat → Nat → DepGraphEdges → List Buffer → WorkerExit
  | _, _, _, [] => WorkerExit.graceful
  | sendIdx, qIdx, edges, b :: rest =>
      match drainChecked queryLive edges qIdx b.msgs with
      | none => WorkerExit.panicked
      | some (edges', qIdx') =>
          if sendIdx < swapOutLive
          then workerLoop swapOutLive queryLive (sendIdx + 1) qIdx' edges' rest
          else WorkerExit.graceful

/-- `main`: the seed send `swap_out.send(Vec::with_capacity(..)).unwrap()`
is send number 0 — if the producer has already dropped the receiver
(`swapOutLive = 0`), the `unwrap` panics; otherwise the loop runs. -/
def workerMain (swapOutLive queryLive : Nat) (inbound : List Buffer) : WorkerExit :=
  if 0 < swapOutLive
  then workerLoop swapOutLive queryLive 1 0 ⟨[]⟩ inbound
  else WorkerExit.panicked

/-! ## Lemmas about draining, snapshots and message traces -/

/-- Number of `Query` markers in a message sequence. -/
def countQuery : List DepMessage → Nat
  | [] => 0
  | DepMessage.Read _ :: rest => countQuery rest
  | DepMessage.Write _ :: rest => countQuery rest
  | DepMessage.PushTask _ :: rest => countQuery rest
  | DepMessage.PopTask _ :: rest => countQuery rest
  | DepMessage.PushIgnore :: rest => countQuery rest
  | DepMessage.PopIgnore :: rest => countQuery rest
  | DepMessage.Query :: rest => countQuery rest + 1

/-- A concrete node used in concrete scenarios. -/
def nodeA : DepNode := ⟨0⟩

/-- A second concrete node used in concrete scenarios. -/
def nodeB : DepNode := ⟨1⟩

/-- The state after `new(true)` (shadow off) followed by one `enqueue` of
`PushIgnore` — used to instantiate reachability hypotheses concretely. -/
def oneEnqState : SysState where
  enabled := true
  shadowEnabled := false
  shadowLog := [DepMessage.PushIgnore]
  messages := ⟨0, [DepMessage.PushIgnore]⟩
  swapIn := [⟨1, []⟩]
  swapOut := []
  queryIn := []
  edges := ⟨[]⟩
  allocCount := 2
  workerSpawned := true
  enqueuedLog := [DepMessage.PushIgnore]
  swapCount := 0
  resultsReceived := 0

theorem opsOf_append (xs ys : List DepMessage) :
    opsOf (xs ++ ys) = opsOf xs ++ opsOf ys := by
  induction xs with
  | nil => rfl
  | cons m rest ih => cases m <;> simp [opsOf, ih]

theorem snapshotsFrom_append (xs ys : List DepMessage) : ∀ tr,
    snapshotsFrom tr (xs ++ ys)
      = snapshotsFrom tr xs ++ snapshotsFrom (tr ++ opsOf xs) ys := by
  induction xs with
  | nil => intro tr; simp [snapshotsFrom, opsOf]
  | cons m rest ih =>
      intro tr
      cases m <;> simp [snapshotsFrom, opsOf, ih, List.append_assoc]

theorem snapshotsFrom_length (msgs : List DepMessage) : ∀ tr,
    (snapshotsFrom tr msgs).length = countQuery msgs := by
  induction msgs with
  | nil => intro tr; rfl
  | cons m rest ih => intro tr; cases m <;> simp [snapshotsFrom, countQuery, ih]

theorem snapshotsFrom_no_query (msgs : List DepMessage)
    (h : DepMessage.Query ∉ msgs) : ∀ tr, snapshotsFrom tr msgs = [] := by
  induction msgs with
  | nil => intro tr; rfl
  | cons m rest ih =>
      intro tr
      have hm : m ≠ DepMessage.Query := fun he => h (he ▸ List.mem_cons_self m rest)
      have hrest : DepMessage.Query ∉ rest := fun hr => h (List.mem_cons_of_mem m hr)
      cases m <;> simp_all [snapshotsFrom]

theorem drainMsgs_spec (msgs : List DepMessage) : ∀ e q,
    drainMsgs e q msgs = (⟨e.trace ++ opsOf msgs⟩, q ++ snapshotsFrom e.trace msgs) := by
  induction msgs with
  | nil => intro e q; simp [drainMsgs, opsOf, snapshotsFrom]
  | cons m rest ih =>
      intro e q
      cases m <;> simp [drainMsgs, opsOf, snapshotsFrom, ih, List.append_assoc]

/-! ## The session invariant

`PreInv` holds at every instant of a fully-enabled session in which the
producer is between operations (the transient state inside `enqueue`, after
the push but before a capacity swap, satisfies it too); `SessionInv` additionally
records that at rest the buffer is strictly below capacity. -/

/-- Invariant of a fully-enabled session (buffer possibly just filled). -/
structure PreInv (s : SysState) : Prop where
  enabled : s.enabled = true
  alloc : s.allocCount = 2
  spawned : s.workerSpawned = true
  out_empty : s.swapOut = []
  ring : ∃ b, s.swapIn = [b] ∧ b.msgs = [] ∧
    (s.messages.id = 0 ∧ b.id = 1 ∨ s.messages.id = 1 ∧ b.id = 0)
  len_le : s.messages.msgs.length ≤ INITIAL_CAPACITY
  delivered : s.edges.trace ++ opsOf s.messages.msgs = opsOf s.enqueuedLog
  snaps : s.queryIn ++ snapshotsFrom s.edges.trace s.messages.msgs
      = (snapshotsFrom [] s.enqueuedLog).drop s.resultsReceived
  rr_le : s.resultsReceived ≤ (snapshotsFrom [] s.enqueuedLog).length

/-- Invariant of a fully-enabled session at rest. -/
structure SessionInv (s : SysState) extends PreInv s : Prop where
  len_lt : s.messages.msgs.length < INITIAL_CAPACITY

theorem inv_newSys (sh : Bool) : SessionInv (newSys true sh) := by
  refine ⟨⟨rfl, rfl, rfl, rfl, ⟨⟨1, []⟩, rfl, rfl, Or.inl ⟨rfl, rfl⟩⟩, ?_, rfl, rfl, ?_⟩, ?_⟩
  · simp [newSys, INITIAL_CAPACITY]
  · simp [newSys, snapshotsFrom]
  · simp [newSys, INITIAL_CAPACITY]

/-- Computation of `swap` on a state whose channels are at rest. -/
theorem swapOp_eq (s : SysState) (b : Buffer) (hen : s.enabled = true)
    (hin : s.swapIn = [b]) (hbm : b.msgs = []) (hout : s.swapOut = []) :
    swapOp s = some { s with
      messages := b
      swapIn := [⟨s.messages.id, []⟩]
      swapOut := []
      queryIn := s.queryIn ++ snapshotsFrom s.edges.trace s.messages.msgs
      edges := ⟨s.edges.trace ++ opsOf s.messages.msgs⟩
      swapCount := s.swapCount + 1 } := by
  simp [swapOp, isFullyEnabled, hen, hin, hbm, workerStep, hout, drainMsgs_spec]

/-- `swap` under the invariant: it succeeds (in particular the received
buffer is empty, so the emptiness assertion passes), re-establishes the
invariant, delivers the whole pending buffer to the graph, and appends one
query result per pending `Query` marker. -/
theorem swapOp_spec (s : SysState) (hP : PreInv s) :
    ∃ s', swapOp s = some s' ∧ SessionInv s' ∧
      s'.messages.msgs = [] ∧
      s'.enqueuedLog = s.enqueuedLog ∧
      s'.shadowLog = s.shadowLog ∧
      s'.shadowEnabled = s.shadowEnabled ∧
      s'.resultsReceived = s.resultsReceived ∧
      s'.swapCount = s.swapCount + 1 ∧
      s'.edges = ⟨opsOf s.enqueuedLog⟩ ∧
      s'.queryIn = (snapshotsFrom [] s.enqueuedLog).drop s.resultsReceived := by
  obtain ⟨b, hin, hbm, hid⟩ := hP.ring
  refine ⟨_, swapOp_eq s b hP.enabled hin hbm hP.out_empty, ⟨⟨hP.enabled, hP.alloc,
    hP.spawned, rfl, ⟨⟨s.messages.id, []⟩, rfl, rfl, ?_⟩, ?_, ?_, ?_, hP.rr_le⟩, ?_⟩,
    ?_, rfl, rfl, rfl, rfl, rfl, ?_, ?_⟩
  · rcases hid with ⟨h1, h2⟩ | ⟨h1, h2⟩ <;> simp [h1, h2]
  · simp [hbm, INITIAL_CAPACITY]
  · simp [hbm, opsOf, hP.delivered]
  · simp [hbm, snapshotsFrom, hP.snaps]
  · simp [hbm, INITIAL_CAPACITY]
  · simp [hbm]
  · exact congrArg DepGraphEdges.mk hP.delivered
  · exact hP.snaps

/-- Computation of `enqueue` when the push does not reach capacity. -/
theorem enqueueOp_eq_small (s : SysState) (m : DepMessage) (hen : s.enabled = true)
    (hne : s.messages.msgs.length + 1 ≠ INITIAL_CAPACITY) :
    enqueueOp s m = some { s with
      shadowLog := s.shadowLog ++ [m]
      messages := ⟨s.messages.id, s.messages.msgs ++ [m]⟩
      enqueuedLog := s.enqueuedLog ++ [m] } := by
  simp [enqueueOp, isEnqueueEnabled, isFullyEnabled, hen, enqueueEnabledOp, vecCellPush, hne]

/-- Computation of `enqueue` when the push reaches capacity: it swaps. -/
theorem enqueueOp_eq_full (s : SysState) (m : DepMessage) (hen : s.enabled = true)
    (heq : s.messages.msgs.length + 1 = INITIAL_CAPACITY) :
    enqueueOp s m = swapOp { s with
      shadowLog := s.shadowLog ++ [m]
      messages := ⟨s.messages.id, s.messages.msgs ++ [m]⟩
      enqueuedLog := s.enqueuedLog ++ [m] } := by
  simp [enqueueOp, isEnqueueEnabled, isFullyEnabled, hen, enqueueEnabledOp, vecCellPush, heq]

/-- The push inside `enqueue_enabled` preserves the session invariant in
its filled form. -/
theorem preInv_push (s : SysState) (m : DepMessage) (hI : SessionInv s) :
    PreInv { s with
      shadowLog := s.shadowLog ++ [m]
      messages := ⟨s.messages.id, s.messages.msgs ++ [m]⟩
      enqueuedLog := s.enqueuedLog ++ [m] } := by
  obtain ⟨b, hin, hbm, hid⟩ := hI.ring
  refine ⟨hI.enabled, hI.alloc, hI.spawned, hI.out_empty, ⟨b, hin, hbm, hid⟩, ?_, ?_, ?_, ?_⟩
  · simpa using Nat.succ_le_of_lt hI.len_lt
  · show s.edges.trace ++ opsOf (s.messages.msgs ++ [m]) = opsOf (s.enqueuedLog ++ [m])
    rw [opsOf_append, opsOf_append, ← List.append_assoc, hI.delivered]
  · show s.queryIn ++ snapshotsFrom s.edges.trace (s.messages.msgs ++ [m])
        = (snapshotsFrom [] (s.enqueuedLog ++ [m])).drop s.resultsReceived
    rw [snapshotsFrom_append, snapshotsFrom_append, hI.delivered,
      List.drop_append_of_le_length hI.rr_le, ← List.append_assoc, hI.snaps,
      List.nil_append]
  · show s.resultsReceived ≤ (snapshotsFrom [] (s.enqueuedLog ++ [m])).length
    rw [snapshotsFrom_append]
    simp only [List.length_append]
    exact le_trans hI.rr_le (Nat.le_add_right _ _)

/-- `enqueue` under the invariant: it succeeds, preserves the invariant,
and appends the message to both the shadow log and the message log. -/
theorem enqueueOp_spec (s : SysState) (m : DepMessage) (hI : SessionInv s) :
    ∃ s', enqueueOp s m = some s' ∧ SessionInv s' ∧
      s'.enqueuedLog = s.enqueuedLog ++ [m] ∧
      s'.shadowLog = s.shadowLog ++ [m] ∧
      s'.shadowEnabled = s.shadowEnabled ∧
      s'.resultsReceived = s.resultsReceived := by
  by_cases hcap : s.messages.msgs.length + 1 = INITIAL_CAPACITY
  · rw [enqueueOp_eq_full s m hI.enabled hcap]
    obtain ⟨s', hs', hInv, _, hlog, hshadow, hshen, hrr, _, _, _⟩ :=
      swapOp_spec _ (preInv_push s m hI)
    exact ⟨s', hs', hInv, by rw [hlog], by rw [hshadow], by rw [hshen], by rw [hrr]⟩
  · rw [enqueueOp_eq_small s m hI.enabled hcap]
    refine ⟨_, rfl, ⟨preInv_push s m hI, ?_⟩, rfl, rfl, rfl, rfl⟩
    show (s.messages.msgs ++ [m]).length < INITIAL_CAPACITY
    rw [List.length_append, List.length_singleton]
    exact Nat.lt_of_le_of_ne (Nat.succ_le_of_lt hI.len_lt) hcap

/-- Running a sequence of `enqueue` calls under the invariant: every call
succeeds and the two logs extend by exactly the sequence. -/
theorem runEnqueues_spec (ms : List DepMessage) : ∀ s, SessionInv s →
    ∃ s', runEnqueues s ms = some s' ∧ SessionInv s' ∧
      s'.enqueuedLog = s.enqueuedLog ++ ms ∧
      s'.shadowLog = s.shadowLog ++ ms ∧
      s'.shadowEnabled = s.shadowEnabled ∧
      s'.resultsReceived = s.resultsReceived := by
  induction ms with
  | nil => intro s hI; exact ⟨s, rfl, hI, by simp, by simp, rfl, rfl⟩
  | cons m rest ih =>
      intro s hI
      obtain ⟨s1, h1, hI1, hlog1, hsh1, hshen1, hrr1⟩ := enqueueOp_spec s m hI
      obtain ⟨s2, h2, hI2, hlog2, hsh2, hshen2, hrr2⟩ := ih s1 hI1
      refine ⟨s2, ?_, hI2, ?_, ?_, ?_, ?_⟩
      · simp [runEnqueues, h1, h2]
      · simp [hlog2, hlog1]
      · simp [hsh2, hsh1]
      · rw [hshen2, hshen1]
      · rw [hrr2, hrr1]

/-- `query` under the invariant: it succeeds, and the returned snapshot is
the first not-yet-received element of the session's snapshot sequence
(the snapshot taken at its own `Query` marker when no unconsumed earlier
marker exists). -/
theorem queryOp_spec (s : SysState) (hI : SessionInv s) :
    ∃ r s', queryOp s = some (r, s') ∧ SessionInv s' ∧
      ((snapshotsFrom [] s.enqueuedLog).drop s.resultsReceived ++
        [opsOf s.enqueuedLog]).head? = some r ∧
      s'.enqueuedLog = s.enqueuedLog ++ [DepMessage.Query] ∧
      s'.shadowLog = s.shadowLog ++ [DepMessage.Query] ∧
      s'.shadowEnabled = s.shadowEnabled ∧
      s'.resultsReceived = s.resultsReceived + 1 ∧
      s'.edges = ⟨opsOf s.enqueuedLog⟩ ∧
      s'.messages.msgs = [] := by
  obtain ⟨s1, h1, hI1, hlog1, hsh1, hshen1, hrr1⟩ := enqueueOp_spec s DepMessage.Query hI
  obtain ⟨s2, h2, hI2, hm2, hlog2, hsh2, hshen2, hrr2, hsc2, hedges2, hq2⟩ :=
    swapOp_spec s1 hI1.toPreInv
  have hsplit : snapshotsFrom [] (s.enqueuedLog ++ [DepMessage.Query])
      = snapshotsFrom [] s.enqueuedLog ++ [opsOf s.enqueuedLog] := by
    rw [snapshotsFrom_append]; simp [snapshotsFrom]
  have hq2s : s2.queryIn
      = (snapshotsFrom [] s.enqueuedLog).drop s.resultsReceived ++ [opsOf s.enqueuedLog] := by
    rw [hq2, hlog1, hrr1, hsplit, List.drop_append_of_le_length hI.rr_le]
  obtain ⟨r, restQ, hcons⟩ : ∃ r restQ, s2.queryIn = r :: restQ := by
    cases hd : (snapshotsFrom [] s.enqueuedLog).drop s.resultsReceived with
    | nil => exact ⟨opsOf s.enqueuedLog, [], by rw [hq2s, hd]; rfl⟩
    | cons a t => exact ⟨a, t ++ [opsOf s.enqueuedLog], by rw [hq2s, hd]; rfl⟩
  have hrun : queryOp s
      = some (r, { s2 with queryIn := restQ, resultsReceived := s2.resultsReceived + 1 }) := by
    simp [queryOp, isFullyEnabled, hI.enabled, h1, h2, hcons]
  have htail : restQ = (snapshotsFrom [] (s.enqueuedLog ++ [DepMessage.Query])).drop
      (s.resultsReceived + 1) := by
    have h3 : (r :: restQ).tail
        = ((snapshotsFrom [] (s.enqueuedLog ++ [DepMessage.Query])).drop s.resultsReceived).tail := by
      rw [← hcons, hq2, hlog1, hrr1]
    simpa [List.tail_drop] using h3
  refine ⟨r, _, hrun, ⟨⟨hI2.enabled, hI2.alloc, hI2.spawned, hI2.out_empty, hI2.ring,
    hI2.len_le, hI2.delivered, ?_, ?_⟩, hI2.len_lt⟩, ?_, ?_, ?_, ?_, ?_, ?_, hm2⟩
  · show restQ ++ snapshotsFrom s2.edges.trace s2.messages.msgs
        = (snapshotsFrom [] s2.enqueuedLog).drop (s2.resultsReceived + 1)
    rw [hm2, hlog2, hlog1, hrr2, hrr1, htail]
    simp [snapshotsFrom]
  · show s2.resultsReceived + 1 ≤ (snapshotsFrom [] s2.enqueuedLog).length
    rw [hlog2, hlog1, hrr2, hrr1, hsplit, List.length_append, List.length_singleton]
    exact Nat.add_le_add_right hI.rr_le 1
  · rw [← hq2s, hcons]
    rfl
  · show s2.enqueuedLog = s.enqueuedLog ++ [DepMessage.Query]
    rw [hlog2, hlog1]
  · show s2.shadowLog = s.shadowLog ++ [DepMessage.Query]
    rw [hsh2, hsh1]
  · show s2.shadowEnabled = s.shadowEnabled
    rw [hshen2, hshen1]
  · show s2.resultsReceived + 1 = s.resultsReceived + 1
    rw [hrr2, hrr1]
  · show s2.edges = ⟨opsOf s.enqueuedLog⟩
    rw [hedges2, hlog1]
    refine congrArg DepGraphEdges.mk ?_
    rw [opsOf_append]
    simp [opsOf]

/-- Any single producer operation under the invariant succeeds and
preserves the invariant. -/
theorem stepOp_spec (s : SysState) (op : POp) (hI : SessionInv s) :
    ∃ s', stepOp s op = some s' ∧ SessionInv s' := by
  cases op with
  | enq m =>
      obtain ⟨s', h, hI', _, _, _, _⟩ := enqueueOp_spec s m hI
      exact ⟨s', h, hI'⟩
  | query =>
      obtain ⟨r, s', h, hI', _, _, _, _, _, _, _⟩ := queryOp_spec s hI
      exact ⟨s', by simp [stepOp, h], hI'⟩
  | swapCall =>
      obtain ⟨s', h, hI', _, _, _, _, _, _, _, _⟩ := swapOp_spec s hI.toPreInv
      exact ⟨s', h, hI'⟩

/-- The invariant holds in every state reachable by a sequence of producer
operations from an invariant state. -/
theorem runOps_inv (ops : List POp) : ∀ s₀ s, SessionInv s₀ →
    runOps s₀ ops = some s → SessionInv s := by
  induction ops with
  | nil =>
      intro s₀ s h0 hrun
      simp only [runOps] at hrun
      exact Option.some.inj hrun ▸ h0
  | cons op rest ih =>
      intro s₀ s h0 hrun
      obtain ⟨s1, h1, hI1⟩ := stepOp_spec s₀ op h0
      rw [runOps, h1] at hrun
      exact ih s1 s hI1 hrun

/-- Enqueuing while strictly below capacity never swaps: the buffer simply
accumulates the messages. -/
theorem runEnqueues_below (ms : List DepMessage) : ∀ s, SessionInv s →
    s.messages.msgs.length + ms.length < INITIAL_CAPACITY →
    ∃ s', runEnqueues s ms = some s' ∧ SessionInv s' ∧
      s'.swapCount = s.swapCount ∧
      s'.messages.msgs = s.messages.msgs ++ ms := by
  induction ms with
  | nil => intro s hI _; exact ⟨s, rfl, hI, rfl, by simp⟩
  | cons m rest ih =>
      intro s hI hlen
      have hlt : s.messages.msgs.length + 1 < INITIAL_CAPACITY := by
        have : s.messages.msgs.length + 1 ≤ s.messages.msgs.length + (m :: rest).length := by
          simp [List.length_cons]
        omega
      have hne : s.messages.msgs.length + 1 ≠ INITIAL_CAPACITY := Nat.ne_of_lt hlt
      rw [runEnqueues, enqueueOp_eq_small s m hI.enabled hne]
      have hI1 : SessionInv { s with
          shadowLog := s.shadowLog ++ [m]
          messages := ⟨s.messages.id, s.messages.msgs ++ [m]⟩
          enqueuedLog := s.enqueuedLog ++ [m] } :=
        ⟨preInv_push s m hI, by simpa using hlt⟩
      obtain ⟨s', hrun, hI', hsc, hmm⟩ := ih _ hI1 (by
        simp only [List.length_cons] at hlen
        simp only [List.length_append, List.length_cons, List.length_nil]
        omega)
      refine ⟨s', hrun, hI', hsc, ?_⟩
      rw [hmm]
      simp

/-- Enqueuing messages that fill the buffer to exactly capacity triggers
exactly one swap, leaving the buffer empty. -/
theorem runEnqueues_exact (ms : List DepMessage) : ∀ s, SessionInv s → ms ≠ [] →
    s.messages.msgs.length + ms.length = INITIAL_CAPACITY →
    ∃ s', runEnqueues s ms = some s' ∧ SessionInv s' ∧
      s'.swapCount = s.swapCount + 1 ∧
      s'.messages.msgs = [] := by
  induction ms with
  | nil => intro s _ hne _; exact absurd rfl hne
  | cons m rest ih =>
      intro s hI _ hlen
      cases rest with
      | nil =>
          have hcap : s.messages.msgs.length + 1 = INITIAL_CAPACITY := by
            simpa using hlen
          rw [runEnqueues, enqueueOp_eq_full s m hI.enabled hcap]
          obtain ⟨s', hswap, hI', hmm, _, _, _, _, hsc, _, _⟩ :=
            swapOp_spec _ (preInv_push s m hI)
          rw [hswap]
          exact ⟨s', rfl, hI', hsc, hmm⟩
      | cons r rest' =>
          have hlt : s.messages.msgs.length + 1 < INITIAL_CAPACITY := by
            simp only [List.length_cons] at hlen
            omega
          have hne : s.messages.msgs.length + 1 ≠ INITIAL_CAPACITY := Nat.ne_of_lt hlt
          rw [runEnqueues, enqueueOp_eq_small s m hI.enabled hne]
          have hI1 : SessionInv { s with
              shadowLog := s.shadowLog ++ [m]
              messages := ⟨s.messages.id, s.messages.msgs ++ [m]⟩
              enqueuedLog := s.enqueuedLog ++ [m] } :=
            ⟨preInv_push s m hI, by simpa using hlt⟩
          obtain ⟨s', hrun, hI', hsc, hmm⟩ := ih _ hI1 (by simp) (by
            simp only [List.length_cons] at hlen
            simp only [List.length_append, List.length_cons, List.length_nil]
            omega)
          exact ⟨s', hrun, hI', hsc, hmm⟩

/-- `swap` never touches the shadow log. -/
theorem swapOp_shadowLog (s s' : SysState) (h : swapOp s = some s') :
    s'.shadowLog = s.shadowLog := by
  unfold swapOp at h
  split at h
  · simp at h
  · split at h
    · simp at h
    · split at h
      · simp at h
      · rw [← Option.some.inj h]
        unfold workerStep
        split <;> rfl

/-- `enqueue` forwards the message to the shadow graph before any
buffering: whenever it returns, the shadow log has been extended by
exactly that message, whether the message was merely buffered, triggered a
swap, or (in shadow-only mode) went nowhere else. -/
theorem enqueueOp_shadowLog (s : SysState) (m : DepMessage) (s' : SysState)
    (h : enqueueOp s m = some s') : s'.shadowLog = s.shadowLog ++ [m] := by
  simp only [enqueueOp] at h
  split at h
  · simp at h
  · split at h
    · simp only [enqueueEnabledOp] at h
      split at h
      · simpa using swapOp_shadowLog _ _ h
      · rw [← Option.some.inj h]
    · rw [← Option.some.inj h]

/-- In shadow-only mode (`enabled = false`, shadow engaged) a sequence of
`enqueue` calls is exactly an append to the shadow log: the buffer, all
three channels, the graph and every ghost field are left unchanged. -/
theorem runEnqueues_shadow_only (ms : List DepMessage) : ∀ s, s.enabled = false →
    s.shadowEnabled = true →
    runEnqueues s ms = some { s with shadowLog := s.shadowLog ++ ms } := by
  induction ms with
  | nil =>
      intro s _ _
      simp only [List.append_nil]
      rfl
  | cons m rest ih =>
      intro s hen hsh
      have h1 : enqueueOp s m = some { s with shadowLog := s.shadowLog ++ [m] } := by
        simp [enqueueOp, isEnqueueEnabled, isFullyEnabled, hen, hsh]
      rw [runEnqueues, h1]
      show runEnqueues { s with shadowLog := s.shadowLog ++ [m] } rest = _
      rw [ih { s with shadowLog := s.shadowLog ++ [m] } hen hsh]
      simp

/-- A drain of a buffer holding no `Query` marker never sends on
`query_out`, hence cannot panic. -/
theorem drainChecked_no_query (queryLive : Nat) :
    ∀ msgs : List DepMessage, DepMessage.Query ∉ msgs → ∀ e qIdx,
    ∃ e', drainChecked queryLive e qIdx msgs = some (e', qIdx) := by
  intro msgs
  induction msgs with
  | nil => intro _ e q; exact ⟨e, rfl⟩
  | cons m rest ih =>
      intro h e q
      have hm : m ≠ DepMessage.Query := fun he => h (he ▸ List.mem_cons_self m rest)
      have hrest : DepMessage.Query ∉ rest := fun hr => h (List.mem_cons_of_mem m hr)
      cases m
      case Query => exact absurd rfl hm
      all_goals simpa [drainChecked] using ih hrest _ q

/-- With the query-result receiver already dropped, draining a buffer that
holds a `Query` marker panics (the `unwrap` on the failed send). -/
theorem drainChecked_query_dead :
    ∀ msgs : List DepMessage, DepMessage.Query ∈ msgs → ∀ e qIdx,
    drainChecked 0 e qIdx msgs = none := by
  intro msgs
  induction msgs with
  | nil => intro h; exact absurd h (List.not_mem_nil _)
  | cons m rest ih =>
      intro h e q
      by_cases hm : m = DepMessage.Query
      · subst hm; simp [drainChecked]
      · have hrest : DepMessage.Query ∈ rest := by
          rcases List.mem_cons.mp h with h1 | h1
          · exact absurd h1.symm hm
          · exact h1
        cases m
        all_goals first
          | exact absurd rfl hm
          | simpa [drainChecked] using ih hrest _ q

/-- The worker loop over query-free buffers always exits gracefully,
whether it runs out of inbound buffers or a recycled-buffer send fails. -/
theorem workerLoop_graceful (swapOutLive queryLive : Nat) :
    ∀ inbound : List Buffer, (∀ b ∈ inbound, DepMessage.Query ∉ b.msgs) →
    ∀ sendIdx qIdx e,
    workerLoop swapOutLive queryLive sendIdx qIdx e inbound = WorkerExit.graceful := by
  intro inbound
  induction inbound with
  | nil => intro _ sendIdx qIdx e; rfl
  | cons b rest ih =>
      intro h sendIdx qIdx e
      obtain ⟨e', hd⟩ :=
        drainChecked_no_query queryLive b.msgs (h b (List.mem_cons_self b rest)) e qIdx
      by_cases hs : sendIdx < swapOutLive
      · simp only [workerLoop, hd, hs, if_true]
        exact ih (fun b' hb' => h b' (List.mem_cons_of_mem b hb')) _ _ _
      · simp [workerLoop, hd, hs]

/-! ## Claim theorems -/

/-- C1 (counterexample): the synchronization-barrier claim is not true for
*every* sequence of messages enqueued before the `query()` call.  If the
caller has enqueued a raw `DepMessage::Query` marker directly (which
`enqueue` accepts), the snapshot `query()` returns is the one taken at that
earlier marker: after enqueuing `Write nodeA`, `Query`, `Write nodeB`,
`query()` returns a snapshot containing only the write of `nodeA`, not the
write of `nodeB` that was enqueued strictly before the call. -/
theorem C1_query_barrier_cex :
    ((runEnqueues (newSys true false)
        [DepMessage.Write nodeA, DepMessage.Query, DepMessage.Write nodeB]).bind
      (fun s => (queryOp s).map Prod.fst)) = some [GraphOp.write nodeA] ∧
    GraphOp.write nodeB ∉ [GraphOp.write nodeA] := by
  exact ⟨rfl, by decide⟩

/-- C1 (amended): when fully enabled, for every sequence of messages
enqueued before the call **that contains no raw `Query` marker**, the
snapshot returned by `query()` reflects exactly the messages enqueued
strictly before the call (all of them, in order) and no message enqueued
after it: it equals the graph trace of precisely that sequence. -/
theorem C1_query_barrier_amended (sh : Bool) (ms : List DepMessage)
    (hq : DepMessage.Query ∉ ms) :
    ((runEnqueues (newSys true sh) ms).bind (fun s => (queryOp s).map Prod.fst))
      = some (opsOf ms) := by
  obtain ⟨s, hrun, hI, hlog, _, _, hrr⟩ := runEnqueues_spec ms (newSys true sh) (inv_newSys sh)
  obtain ⟨r, s', hqop, _, hhead, _, _, _, _, _, _⟩ := queryOp_spec s hI
  have hlog' : s.enqueuedLog = ms := by simpa [newSys] using hlog
  have hrr' : s.resultsReceived = 0 := by simpa [newSys] using hrr
  have hr : r = opsOf ms := by
    rw [hlog', hrr', snapshotsFrom_no_query ms hq] at hhead
    simpa using hhead.symm
  rw [hrun]
  simp [hqop, hr]

/-- C1 (witness for the amended theorem). -/
theorem C1_query_barrier_amended_witness :
    DepMessage.Query ∉ [DepMessage.Read ⟨0⟩] ∧
    ((runEnqueues (newSys true false) [DepMessage.Read ⟨0⟩]).bind
        (fun s => (queryOp s).map Prod.fst)) = some (opsOf [DepMessage.Read ⟨0⟩]) :=
  ⟨by decide, C1_query_barrier_amended false [DepMessage.Read ⟨0⟩] (by decide)⟩

/-- C2: when fully enabled, for every sequence of enqueued messages
(spanning any number of capacity swaps), the trace `DepGraphEdges` has
observed, followed by the still-buffered remainder, is exactly the enqueued
sequence in enqueue order — no reordering, loss or duplication — and after
the next flush the observed trace is exactly the whole sequence. -/
theorem C2_order_preservation (sh : Bool) (ms : List DepMessage) :
    ∃ s s', runEnqueues (newSys true sh) ms = some s ∧
      s.edges.trace ++ opsOf s.messages.msgs = opsOf ms ∧
      swapOp s = some s' ∧
      s'.edges.trace = opsOf ms := by
  obtain ⟨s, hrun, hI, hlog, _, _, _⟩ := runEnqueues_spec ms (newSys true sh) (inv_newSys sh)
  have hlog' : s.enqueuedLog = ms := by simpa [newSys] using hlog
  obtain ⟨s', hs, hI', hmm, hlogeq, hsh, hshen, hrr, hsc, hedges, hqin⟩ :=
    swapOp_spec s hI.toPreInv
  refine ⟨s, s', hrun, ?_, hs, ?_⟩
  · rw [hI.delivered, hlog']
  · rw [hedges, hlog']

/-- C3: throughout a fully-enabled session — under any sequence of
producer operations — exactly the two startup buffer allocations exist
(`allocCount` stays 2: no operation allocates a fresh buffer), and the two
buffers in play are always exactly the producer's original (id 0) and the
worker's seed (id 1): one installed as the current buffer and the other in
the ring, the worker having sent back the very buffer it received and the
producer having installed exactly the buffer it received. -/
theorem C3_two_buffer_ring (sh : Bool) (ops : List POp) (s : SysState)
    (h : runOps (newSys true sh) ops = some s) :
    s.allocCount = 2 ∧
    ∃ b, s.swapIn = [b] ∧
      (s.messages.id = 0 ∧ b.id = 1 ∨ s.messages.id = 1 ∧ b.id = 0) := by
  have hI := runOps_inv ops (newSys true sh) s (inv_newSys sh) h
  obtain ⟨b, hin, _, hid⟩ := hI.ring
  exact ⟨hI.alloc, b, hin, hid⟩

/-- C3 (witness). -/
theorem C3_two_buffer_ring_witness :
    oneEnqState.allocCount = 2 ∧
    ∃ b, oneEnqState.swapIn = [b] ∧
      (oneEnqState.messages.id = 0 ∧ b.id = 1 ∨
        oneEnqState.messages.id = 1 ∧ b.id = 0) :=
  C3_two_buffer_ring false [POp.enq DepMessage.PushIgnore] oneEnqState (by rfl)

/-- C4: when fully enabled with capacity `INITIAL_CAPACITY = 2048`,
enqueuing exactly that many messages (with no query in between) triggers
exactly one swap, and enqueuing one fewer triggers none. -/
theorem C4_capacity_trigger (sh : Bool) (msFull msBelow : List DepMessage)
    (hFull : msFull.length = INITIAL_CAPACITY)
    (hBelow : msBelow.length = INITIAL_CAPACITY - 1) :
    (∃ s, runEnqueues (newSys true sh) msFull = some s ∧ s.swapCount = 1) ∧
    (∃ s, runEnqueues (newSys true sh) msBelow = some s ∧ s.swapCount = 0) := by
  constructor
  · have hne : msFull ≠ [] := by
      intro hnil
      rw [hnil] at hFull
      simp [INITIAL_CAPACITY] at hFull
    obtain ⟨s', hrun, _, hsc, _⟩ := runEnqueues_exact msFull (newSys true sh)
      (inv_newSys sh) hne (by simpa [newSys] using hFull)
    exact ⟨s', hrun, by simpa [newSys] using hsc⟩
  · obtain ⟨s', hrun, _, hsc, _⟩ := runEnqueues_below msBelow (newSys true sh)
      (inv_newSys sh) (by
        simp only [newSys, List.length_nil]
        rw [hBelow]
        norm_num [INITIAL_CAPACITY])
    exact ⟨s', hrun, by simpa [newSys] using hsc⟩

/-- C4 (witness). -/
theorem C4_capacity_trigger_witness :
    (∃ s, runEnqueues (newSys true false)
        (List.replicate 2048 DepMessage.PushIgnore) = some s ∧ s.swapCount = 1) ∧
    (∃ s, runEnqueues (newSys true false)
        (List.replicate 2047 DepMessage.PushIgnore) = some s ∧ s.swapCount = 0) :=
  C4_capacity_trigger false _ _ (by rw [List.length_replicate]; rfl)
    (by rw [List.length_replicate]; rfl)

/-- C5: in any state reachable in a fully-enabled session, the single
buffer waiting on `swap_in` — the next one the producer will receive — is
empty, so the emptiness assertion in `swap` can never fire: `swap` from any
reachable state succeeds (never panics). -/
theorem C5_received_buffer_empty (sh : Bool) (ops : List POp) (s : SysState)
    (h : runOps (newSys true sh) ops = some s) :
    (∃ b, s.swapIn = [b] ∧ b.msgs = []) ∧ swapOp s ≠ none := by
  have hI := runOps_inv ops (newSys true sh) s (inv_newSys sh) h
  obtain ⟨b, hin, hbm, _⟩ := hI.ring
  obtain ⟨s', hs, _⟩ := swapOp_spec s hI.toPreInv
  exact ⟨⟨b, hin, hbm⟩, by simp [hs]⟩

/-- C5 (witness). -/
theorem C5_received_buffer_empty_witness :
    (∃ b, (newSys true false).swapIn = [b] ∧ b.msgs = []) ∧
    swapOp (newSys true false) ≠ none :=
  C5_received_buffer_empty false [] (newSys true false) rfl

/-- C6: protocol violations fail fast (the panic of the violated `assert!`
is modelled by `none`): `swap` or `query` while not fully enabled panics,
`enqueue` while not enqueue-enabled panics, and `swap` panics when the
buffer it receives is non-empty — none of these is tolerated or retried. -/
theorem C6_protocol_violations (s : SysState) (m : DepMessage) (b : Buffer) :
    (s.enabled = false → swapOp s = none ∧ queryOp s = none) ∧
    (isEnqueueEnabled s = false → enqueueOp s m = none) ∧
    (s.enabled = true → s.swapIn.head? = some b → b.msgs ≠ [] → swapOp s = none) := by
  refine ⟨fun hen => ⟨?_, ?_⟩, fun hqe => ?_, fun hen hhead hne => ?_⟩
  · simp [swapOp, isFullyEnabled, hen]
  · simp [queryOp, isFullyEnabled, hen]
  · simp [enqueueOp, hqe]
  · cases hin : s.swapIn with
    | nil => rw [hin] at hhead; simp at hhead
    | cons b' rest =>
        rw [hin] at hhead
        have hb : b' = b := by simpa using hhead
        have hne' : b'.msgs ≠ [] := by rw [hb]; exact hne
        have hfalse : b'.msgs.isEmpty = false := by
          cases hbm : b'.msgs with
          | nil => exact absurd hbm hne'
          | cons x xs => rfl
        simp [swapOp, isFullyEnabled, hen, hin, hfalse]

/-- C6 (witness). -/
theorem C6_protocol_violations_witness :
    (swapOp (newSys false false) = none ∧ queryOp (newSys false false) = none) ∧
    enqueueOp (newSys false false) DepMessage.PushIgnore = none ∧
    swapOp { newSys true false with swapIn := [⟨1, [DepMessage.PushIgnore]⟩] } = none := by
  refine ⟨(C6_protocol_violations (newSys false false) DepMessage.PushIgnore ⟨1, []⟩).1 rfl,
    (C6_protocol_violations (newSys false false) DepMessage.PushIgnore ⟨1, []⟩).2.1 rfl,
    (C6_protocol_violations _ DepMessage.PushIgnore
      ⟨1, [DepMessage.PushIgnore]⟩).2.2 rfl rfl (by decide)⟩

/-- C7: with `fullyEnabled = false` and the shadow graph disabled, `new`
spawns no worker thread (and seeds no buffer), and `enqueue` aborts at its
precondition check before touching any state, so it has no effect on any
graph state. -/
theorem C7_disabled_no_op :
    (newSys false false).workerSpawned = false ∧
    (newSys false false).swapIn = [] ∧
    ∀ m, enqueueOp (newSys false false) m = none := by
  refine ⟨rfl, rfl, fun m => ?_⟩
  simp [enqueueOp, isEnqueueEnabled, isFullyEnabled, newSys]

/-- C8 (counterexample): not every worker send to a dropped peer is
handled gracefully.  The initial seed send is `.unwrap()`ed, so a worker
whose producer has already dropped the `swap_in` receiver panics before
its loop even starts; likewise the query-result send is `.unwrap()`ed, so
draining a `Query` marker after the query receiver is dropped panics. -/
theorem C8_shutdown_cex :
    workerMain 0 0 [] = WorkerExit.panicked ∧
    workerMain 1 0 [⟨1, [DepMessage.Query]⟩] = WorkerExit.panicked := by
  exact ⟨rfl, rfl⟩

/-- C8 (amended): only the recycled-buffer send and the inbound receive
signal shutdown gracefully.  With the `swap_out` receiver dropped from the
start the seed send panics; with the query receiver dropped, draining a
buffer that holds a `Query` marker panics; but whenever the seed send
succeeds and no query-result send is attempted, the worker always exits
gracefully — whether its inbound channel closes or a recycled-buffer send
fails. -/
theorem C8_shutdown_amended :
    (∀ (queryLive : Nat) (inbound : List Buffer),
        workerMain 0 queryLive inbound = WorkerExit.panicked) ∧
    (∀ (swapOutLive : Nat) (b : Buffer) (inbound : List Buffer),
        0 < swapOutLive → DepMessage.Query ∈ b.msgs →
        workerMain swapOutLive 0 (b :: inbound) = WorkerExit.panicked) ∧
    (∀ (swapOutLive queryLive : Nat) (inbound : List Buffer),
        0 < swapOutLive → (∀ b ∈ inbound, DepMessage.Query ∉ b.msgs) →
        workerMain swapOutLive queryLive inbound = WorkerExit.graceful) := by
  refine ⟨fun ql inbound => by simp [workerMain], fun sl b inbound hsl hq => ?_,
    fun sl ql inbound hsl hfree => ?_⟩
  · simp only [workerMain, hsl, if_true]
    simp [workerLoop, drainChecked_query_dead b.msgs hq]
  · simp only [workerMain, hsl, if_true]
    exact workerLoop_graceful sl ql inbound hfree 1 0 ⟨[]⟩

/-- C8 (witness for the amended theorem). -/
theorem C8_shutdown_amended_witness :
    workerMain 0 3 [⟨0, []⟩] = WorkerExit.panicked ∧
    workerMain 2 0 [⟨0, [DepMessage.Query]⟩, ⟨1, []⟩] = WorkerExit.panicked ∧
    workerMain 1 0 [⟨1, [DepMessage.PushIgnore]⟩, ⟨0, []⟩] = WorkerExit.graceful := by
  obtain ⟨h1, h2, h3⟩ := C8_shutdown_amended
  exact ⟨h1 3 [⟨0, []⟩],
    h2 2 ⟨0, [DepMessage.Query]⟩ [⟨1, []⟩] (by decide) (by decide),
    h3 1 0 [⟨1, [DepMessage.PushIgnore]⟩, ⟨0, []⟩] (by decide) (by decide)⟩

/-- C9: every call to `enqueue` forwards the message to the shadow
validator first — its log is extended by the message whether the message
is then buffered, triggers a swap, or goes nowhere else — and in
shadow-only mode (`fullyEnabled = false`, `shadowActive = true`) a
sequence of enqueues delivers exactly the sequence to the validator in
order while leaving the buffer, all three channels, the graph and every
other field of the producer state unchanged. -/
theorem C9_shadow_first_frame :
    (∀ (s : SysState) (m : DepMessage) (s' : SysState),
        enqueueOp s m = some s' → s'.shadowLog = s.shadowLog ++ [m]) ∧
    (∀ ms : List DepMessage,
        runEnqueues (newSys false true) ms
          = some { newSys false true with shadowLog := ms }) := by
  constructor
  · exact fun s m s' h => enqueueOp_shadowLog s m s' h
  · intro ms
    have h := runEnqueues_shadow_only ms (newSys false true) rfl rfl
    simpa [newSys] using h

/-- C9 (witness). -/
theorem C9_shadow_first_frame_witness :
    oneEnqState.shadowLog = (newSys true false).shadowLog ++ [DepMessage.PushIgnore] ∧
    runEnqueues (newSys false true) [DepMessage.PushIgnore]
      = some { newSys false true with shadowLog := [DepMessage.PushIgnore] } := by
  obtain ⟨h1, h2⟩ := C9_shadow_first_frame
  exact ⟨h1 (newSys true false) DepMessage.PushIgnore oneEnqState rfl,
    h2 [DepMessage.PushIgnore]⟩

/-- C10: the worker sends exactly one snapshot per `Query` marker it
drains; a `query()` call after any enqueue sequence returns the oldest
snapshot not yet received (the head of the session's snapshot sequence,
which is the fresh one only when no unconsumed earlier marker exists);
consequently, passing `DepMessage::Query` directly to `enqueue` makes a
later `query()` return the stale snapshot taken at that earlier marker —
concretely, after `Write nodeA`, `Query`, `Write nodeB`, the call returns
the snapshot with only `nodeA`'s write while the graph the `query()` call
flushed already holds both writes. -/
theorem C10_query_result_pairing :
    (∀ (e : DepGraphEdges) (qout : List DepGraphQuery) (msgs : List DepMessage),
        ((drainMsgs e qout msgs).2).length = qout.length + countQuery msgs) ∧
    (∀ (sh : Bool) (ms : List DepMessage),
        ∃ s r s', runEnqueues (newSys true sh) ms = some s ∧
          queryOp s = some (r, s') ∧
          (snapshotsFrom [] ms ++ [opsOf ms]).head? = some r) ∧
    (((runEnqueues (newSys true false)
          [DepMessage.Write nodeA, DepMessage.Query, DepMessage.Write nodeB]).bind
        queryOp).map Prod.fst = some [GraphOp.write nodeA] ∧
      ((runEnqueues (newSys true false)
          [DepMessage.Write nodeA, DepMessage.Query, DepMessage.Write nodeB]).bind
        queryOp).map (fun p => p.2.edges.trace)
          = some [GraphOp.write nodeA, GraphOp.write nodeB]) := by
  refine ⟨fun e qout msgs => ?_, fun sh ms => ?_, rfl, rfl⟩
  · rw [drainMsgs_spec, List.length_append, snapshotsFrom_length]
  · obtain ⟨s, hrun, hI, hlog, _, _, hrr⟩ :=
      runEnqueues_spec ms (newSys true sh) (inv_newSys sh)
    obtain ⟨r, s', hqop, _, hhead, _, _, _, _, _, _⟩ := queryOp_spec s hI
    have hlog' : s.enqueuedLog = ms := by simpa [newSys] using hlog
    have hrr' : s.resultsReceived = 0 := by simpa [newSys] using hrr
    rw [hlog', hrr', List.drop_zero] at hhead
    exact ⟨s, r, s', hrun, hqop, hhead⟩
